import Mathlib

/-!
Shallow embedding of gosync's `main.go`: a peer file-synchronisation
program.  The node keeps a set of relative file paths (`fileList`), a set
of peers marked unreachable (`ignoredNodes`), and a `syncCompleted` flag.
Network effects are abstracted by an environment giving each peer's
response to a list-files call and the outcome of each file download.
-/

namespace GoSync

/-- Outcome of a `client.Get(peerURL + "/files")` call followed by reading
the body with a scanner, as in `checkAllNodesInSync` and `syncWithPeer`:
the call itself may fail (timeout / connection failure), reading the body
may fail (`scanner.Err()`), or it yields the peer's newline-separated
file list. -/
inductive ListResult where
  | connErr : ListResult
  | readErr : ListResult
  | ok : List String → ListResult
deriving DecidableEq

/-- Abstraction of the network for one pass: each peer's response to a
list-files call, and whether `downloadFile peer file` succeeds. -/
structure Env where
  listResp : String → ListResult
  fetchOk : String → String → Bool

/-- The node's mutable global state in `main.go`: `fileList` (set
semantics: map path → true), `ignoredNodes`, and `syncCompleted`. -/
structure NodeState where
  fileList : Finset String
  ignoredNodes : Finset String
  syncCompleted : Bool
deriving DecidableEq

/-- State at startup, after the directory walk filled `fileList`:
`ignoredNodes` is empty and `syncCompleted` is false. -/
def initState (files : Finset String) : NodeState :=
  { fileList := files, ignoredNodes := ∅, syncCompleted := false }

/-- Timeout (seconds) of the HTTP client in `checkAllNodesInSync`
(main.go line 168). -/
def checkClientTimeout : Nat := 5

/-- Timeout (seconds) of the HTTP client in `syncWithPeer`, used for the
peer's file-list fetch and the push notifications (main.go line 344). -/
def syncClientTimeout : Nat := 30

/-- Timeout (seconds) of the HTTP client in `downloadFile`
(main.go line 423). -/
def downloadClientTimeout : Nat := 60

/-- The file-list comparison in `checkAllNodesInSync` (lines 193-206):
`filesMatch` is false when the two lists differ in size, otherwise it
requires every local file to be present in the peer's list. -/
def filesMatch (fileList peerFiles : Finset String) : Bool :=
  if peerFiles.card ≠ fileList.card then false
  else decide (∀ f ∈ fileList, f ∈ peerFiles)

/-- One iteration of the loop in `checkAllNodesInSync` for peer `ip`,
carrying `(accessibleNodeCount, ignoredNodes)`: a quarantined peer is
skipped; a connection failure quarantines the peer (`ignoreNode`); a body
read failure is skipped; a successful response is compared with
`filesMatch` and counted when equal. -/
def checkStep (env : Env) (fileList : Finset String)
    (acc : Nat × Finset String) (ip : String) : Nat × Finset String :=
  if ip ∈ acc.2 then acc
  else
    match env.listResp ip with
    | .connErr => (acc.1, insert ip acc.2)
    | .readErr => acc
    | .ok fs =>
        if filesMatch fileList fs.toFinset then (acc.1 + 1, acc.2) else acc

/-- Function `checkAllNodesInSync` (main.go lines 153-221): walk the configured
peers with `checkStep`, then return
`accessibleNodeCount + len(ignoredNodes) >= totalNodeCount` together with
the updated state (`ignoredNodes` is read again after the loop, so freshly
quarantined peers are included in the count). -/
def checkAllNodesInSync (peers : List String) (env : Env) (st : NodeState) :
    Bool × NodeState :=
  let r := peers.foldl (checkStep env st.fileList) (0, st.ignoredNodes)
  (decide (r.1 + r.2.card ≥ peers.length), { st with ignoredNodes := r.2 })

/-- Slice `filesToPush` in `syncWithPeer` (lines 369-377): the local files the
peer lacks. -/
def filesToPush (fileList peerFiles : Finset String) : Finset String :=
  fileList.filter (fun f => f ∉ peerFiles)

/-- Slice `filesToPull` in `syncWithPeer` (lines 379-389): the peer's files this
node lacks. -/
def filesToPull (fileList peerFiles : Finset String) : Finset String :=
  peerFiles.filter (fun f => f ∉ fileList)

/-- Function `syncWithPeer` (lines 336-417): fetch the peer's file list (a failed
call or a failed body read aborts this peer's round with no state change),
compute the pull/push differences, download each file of `filesToPull`
(a successful download adds the file to `fileList`; a failure skips that
file), and notify the peer for each file of `filesToPush` (no local state
change). `ignoredNodes` and `syncCompleted` are never touched here. -/
def syncWithPeer (env : Env) (ip : String) (st : NodeState) : NodeState :=
  match env.listResp ip with
  | .connErr => st
  | .readErr => st
  | .ok fs =>
      let peerFiles := fs.toFinset
      let pulled := (filesToPull st.fileList peerFiles).filter
        (fun f => env.fetchOk ip f)
      { st with fileList := st.fileList ∪ pulled }

/-- The fan-out in `main` (lines 112-118): run `syncWithPeer` for every
configured peer (one sequential interleaving of the concurrent round; the
reconcilers never touch `ignoredNodes` or `syncCompleted`). -/
def reconcileAll (peers : List String) (env : Env) (st : NodeState) :
    NodeState :=
  peers.foldl (fun s ip => syncWithPeer env ip s) st

/-- One round of the loop in `main`: reconcile with every peer, then run
the convergence check. -/
def doRound (peers : List String) (env : Env) (st : NodeState) :
    Bool × NodeState :=
  checkAllNodesInSync peers env (reconcileAll peers env st)

/-- Constant `maxAttempts` (main.go line 28). -/
def maxAttempts : Nat := 5

/-- The `for syncAttempts < maxAttempts` loop of `main` (lines 106-132):
`att` is the number of rounds already run, `fuel` the remaining budget
(`maxAttempts - att`).  Returns the final state, the number of rounds run
(`syncAttempts` at exit) and whether the loop exited via a successful
convergence check. -/
def runLoop (peers : List String) (envs : Nat → Env) :
    Nat → Nat → NodeState → NodeState × Nat × Bool
  | 0, att, st => (st, att, false)
  | fuel + 1, att, st =>
      let r := doRound peers (envs att) st
      if r.1 then (r.2, att + 1, true)
      else runLoop peers envs fuel (att + 1) r.2

/-- Function `main` after startup (lines 100-135): with no peers the program exits
at once without entering the loop; otherwise the bounded retry loop runs. -/
def mainRun (peers : List String) (envs : Nat → Env) (st : NodeState) :
    NodeState × Nat × Bool :=
  if peers.isEmpty then (st, 0, true)
  else runLoop peers envs maxAttempts 0 st

/-- Handler `handleCheckSync` (lines 224-234): the response body of `/check`. -/
def handleCheckSync (st : NodeState) : String :=
  if st.syncCompleted then "COMPLETED" else "PENDING"

/-- Handler `handleSyncRequest` (lines 289-333).  `file` is the value of
`r.URL.Query().Get("file")`, which is `""` both when the parameter is
missing and when it is present with an empty value.  Returns the HTTP
status code, whether a background download goroutine was spawned, and the
node state after the request (including the eventual effect of the
spawned download, whose success is `fetchOk`). -/
def handleSyncRequest (file : String) (fetchOk : Bool) (st : NodeState) :
    Nat × Bool × NodeState :=
  if file = "" then (400, false, st)
  else if file ∈ st.fileList then (200, false, st)
  else if fetchOk then
    (200, true, { st with fileList := insert file st.fileList })
  else (200, true, st)

/-- The state-mutating operations the process can perform after startup:
a single reconciler execution, a convergence-check pass, and an inbound
`/sync` request.  (`/files`, `/file` and `/check` never mutate state.) -/
inductive Op where
  | reconcile (ip : String) (env : Env)
  | check (env : Env)
  | syncReq (file : String) (fetchOk : Bool)

/-- Effect of one operation on the node state. -/
def applyOp (peers : List String) (st : NodeState) : Op → NodeState
  | .reconcile ip env => syncWithPeer env ip st
  | .check env => (checkAllNodesInSync peers env st).2
  | .syncReq file ok => (handleSyncRequest file ok st).2.2

/-- Run a sequence of operations. -/
def run (peers : List String) (st : NodeState) : List Op → NodeState
  | [] => st
  | op :: ops => run peers (applyOp peers st op) ops

/-- A peer's list-files call in a pass succeeded and its snapshot was
found equal to the local inventory (the spec's per-peer "in sync"
condition). -/
def okMatch (env : Env) (fileList : Finset String) (ip : String) : Bool :=
  match env.listResp ip with
  | .ok fs => filesMatch fileList fs.toFinset
  | _ => false

/-- The spec's `inSync` quantity for a pass: the count of configured peers
that were not quarantined when the pass started and whose reported
snapshot was found equal to the local inventory. -/
def specInSyncCount (peers : List String) (env : Env)
    (fileList ign : Finset String) : Nat :=
  (peers.filter (fun ip => decide (ip ∉ ign) && okMatch env fileList ip)).length

/-- The counter accumulated by the check loop equals the spec's `inSync`
count relative to the quarantine set the pass started with. -/
theorem foldl_checkStep_fst (env : Env) (L : Finset String) (peers : List String) :
    ∀ (n : Nat) (ign : Finset String),
      (peers.foldl (checkStep env L) (n, ign)).1 =
        n + specInSyncCount peers env L ign := by
  induction peers with
  | nil => intro n ign; simp [specInSyncCount]
  | cons ip tl ih =>
    intro n ign
    by_cases hq : ip ∈ ign
    · have hd : (decide (ip ∉ ign) && okMatch env L ip) = false := by simp [hq]
      simp only [List.foldl_cons, checkStep, if_pos hq, specInSyncCount,
        List.filter_cons, hd, if_neg Bool.false_ne_true]
      exact ih n ign
    · cases hr : env.listResp ip with
      | connErr =>
          have hd : (decide (ip ∉ ign) && okMatch env L ip) = false := by
            simp [okMatch, hr]
          simp only [List.foldl_cons, checkStep, if_neg hq, hr, specInSyncCount,
            List.filter_cons, hd, if_neg Bool.false_ne_true]
          rw [ih n (insert ip ign)]
          congr 1
          unfold specInSyncCount
          congr 1
          apply List.filter_congr
          intro x _
          by_cases hxi : x = ip
          · subst hxi; simp [okMatch, hr]
          · simp [Finset.mem_insert, hxi]
      | readErr =>
          have hd : (decide (ip ∉ ign) && okMatch env L ip) = false := by
            simp [okMatch, hr]
          simp only [List.foldl_cons, checkStep, if_neg hq, hr, specInSyncCount,
            List.filter_cons, hd, if_neg Bool.false_ne_true]
          exact ih n ign
      | ok fs =>
          by_cases hm : filesMatch L fs.toFinset
          · have hd : (decide (ip ∉ ign) && okMatch env L ip) = true := by
              simp [okMatch, hr, hm, hq]
            simp only [List.foldl_cons, checkStep, if_neg hq, hr, if_pos hm,
              specInSyncCount, List.filter_cons, hd, if_pos rfl]
            rw [ih (n + 1) ign]
            simp [specInSyncCount, Nat.add_comm, Nat.add_assoc, Nat.add_left_comm]
          · have hd : (decide (ip ∉ ign) && okMatch env L ip) = false := by
              simp [okMatch, hr, hm]
            simp only [List.foldl_cons, checkStep, if_neg hq, hr, if_neg hm,
              specInSyncCount, List.filter_cons, hd, if_neg Bool.false_ne_true]
            exact ih n ign

/-- A peer is in the quarantine set accumulated by the check loop exactly
when it was quarantined before the pass, or it is a configured peer that
was not yet quarantined and whose list-files call failed with a
connection error. -/
theorem mem_foldl_checkStep_snd (env : Env) (L : Finset String) (peers : List String) :
    ∀ (n : Nat) (ign : Finset String) (x : String),
      x ∈ (peers.foldl (checkStep env L) (n, ign)).2 ↔
        x ∈ ign ∨ (x ∈ peers ∧ x ∉ ign ∧ env.listResp x = .connErr) := by
  induction peers with
  | nil => intro n ign x; simp
  | cons ip tl ih =>
    intro n ign x
    by_cases hq : ip ∈ ign
    · simp only [List.foldl_cons, checkStep, if_pos hq]
      rw [ih n ign x]
      by_cases hx : x = ip
      · subst hx; simp [hq]
      · simp only [List.mem_cons]
        tauto
    · cases hr : env.listResp ip with
      | connErr =>
          simp only [List.foldl_cons, checkStep, if_neg hq, hr]
          rw [ih n (insert ip ign) x]
          by_cases hx : x = ip
          · subst hx; simp [hq, hr]
          · simp [Finset.mem_insert, List.mem_cons, hx]
      | readErr =>
          simp only [List.foldl_cons, checkStep, if_neg hq, hr]
          rw [ih n ign x]
          by_cases hx : x = ip
          · subst hx; simp [hq, hr]
          · simp only [List.mem_cons]
            tauto
      | ok fs =>
          by_cases hm : filesMatch L fs.toFinset
          · simp only [List.foldl_cons, checkStep, if_neg hq, hr, if_pos hm]
            rw [ih (n + 1) ign x]
            by_cases hx : x = ip
            · subst hx; simp [hq, hr]
            · simp only [List.mem_cons]
              tauto
          · simp only [List.foldl_cons, checkStep, if_neg hq, hr, if_neg hm]
            rw [ih n ign x]
            by_cases hx : x = ip
            · subst hx; simp [hq, hr]
            · simp only [List.mem_cons]
              tauto

/-- Unfolding of the comparison in the check loop: the peer matches
exactly when the reported snapshot has the local inventory's cardinality
and contains every local path. -/
theorem filesMatch_iff (L P : Finset String) :
    filesMatch L P = true ↔ P.card = L.card ∧ ∀ f ∈ L, f ∈ P := by
  unfold filesMatch
  split
  · next h => simp [h]
  · next h =>
      rw [not_ne_iff] at h
      simp [h]

/-- Function `syncWithPeer` never changes `ignoredNodes` or `syncCompleted`. -/
theorem syncWithPeer_ignored_completed (env : Env) (ip : String) (st : NodeState) :
    (syncWithPeer env ip st).ignoredNodes = st.ignoredNodes ∧
      (syncWithPeer env ip st).syncCompleted = st.syncCompleted := by
  unfold syncWithPeer
  cases env.listResp ip <;> exact ⟨rfl, rfl⟩

/-- Handler `handleSyncRequest` never changes `ignoredNodes` or `syncCompleted`. -/
theorem handleSyncRequest_ignored_completed (file : String) (ok : Bool)
    (st : NodeState) :
    (handleSyncRequest file ok st).2.2.ignoredNodes = st.ignoredNodes ∧
      (handleSyncRequest file ok st).2.2.syncCompleted = st.syncCompleted := by
  unfold handleSyncRequest
  split
  · exact ⟨rfl, rfl⟩
  · split
    · exact ⟨rfl, rfl⟩
    · split <;> exact ⟨rfl, rfl⟩

/-- The convergence check never changes `fileList` or `syncCompleted`. -/
theorem checkAllNodesInSync_fileList_completed (peers : List String)
    (env : Env) (st : NodeState) :
    (checkAllNodesInSync peers env st).2.fileList = st.fileList ∧
      (checkAllNodesInSync peers env st).2.syncCompleted = st.syncCompleted := by
  exact ⟨rfl, rfl⟩

/-- C1: For every convergence-check pass, the Convergence Checker returns
true if and only if `inSync + quarantined >= total`, where `total` is the
number of configured peers, `inSync` is the count of non-quarantined peers
whose reported snapshot was found equal to LocalInventory in this pass,
and `quarantined` is the size of the quarantine set read after the pass. -/
theorem checkAllNodesInSync_decision_rule (peers : List String) (env : Env)
    (st : NodeState) :
    (checkAllNodesInSync peers env st).1 = true ↔
      specInSyncCount peers env st.fileList st.ignoredNodes +
          ((checkAllNodesInSync peers env st).2.ignoredNodes).card ≥
        peers.length := by
  unfold checkAllNodesInSync
  simp only [decide_eq_true_iff]
  rw [foldl_checkStep_fst]
  simp

/-- C2: During a convergence-check pass, a non-quarantined peer whose
list-files call succeeds is counted as in sync (the counter is
incremented) if and only if its reported snapshot has the same number of
paths as LocalInventory and every path in LocalInventory appears in the
snapshot. -/
theorem checkStep_counts_iff (env : Env) (L : Finset String) (n : Nat)
    (ign : Finset String) (ip : String) (fs : List String)
    (hq : ip ∉ ign) (hr : env.listResp ip = .ok fs) :
    (checkStep env L (n, ign) ip).1 = n + 1 ↔
      fs.toFinset.card = L.card ∧ ∀ f ∈ L, f ∈ fs := by
  have hmatch : filesMatch L fs.toFinset = true ↔
      (fs.toFinset.card = L.card ∧ ∀ f ∈ L, f ∈ fs) := by
    rw [filesMatch_iff]
    simp [List.mem_toFinset]
  simp only [checkStep, hr, if_neg hq]
  by_cases hm : filesMatch L fs.toFinset = true
  · simp [hm]
    exact hmatch.mp hm
  · rw [Bool.not_eq_true] at hm
    have hno : ¬(fs.toFinset.card = L.card ∧ ∀ f ∈ L, f ∈ fs) := fun hc => by
      rw [hmatch.mpr hc] at hm
      exact Bool.noConfusion hm
    simp [hm, hno]

/-- C3: For every local inventory set L and every peer snapshot P, the
Reconciler computes `toPull = P \ L` and `toPush = L \ P`, and the two
difference sets are disjoint. -/
theorem syncWithPeer_diff (L P : Finset String) :
    filesToPull L P = P \ L ∧ filesToPush L P = L \ P ∧
      Disjoint (filesToPull L P) (filesToPush L P) := by
  refine ⟨?_, ?_, ?_⟩
  · rw [Finset.sdiff_eq_filter]; rfl
  · rw [Finset.sdiff_eq_filter]; rfl
  · rw [Finset.disjoint_left]
    intro a ha hb
    rw [filesToPull, Finset.mem_filter] at ha
    rw [filesToPush, Finset.mem_filter] at hb
    exact ha.2 hb.1

/-- C4: A peer enters the quarantine set only through the Convergence
Checker's list-files call failing with a timeout or connection failure
(`.connErr`): any peer of the checker's final quarantine set was already
quarantined or is a configured peer whose list-files call failed with a
connection error; the Reconciler never changes the quarantine set, and a
failed list-files call in the Reconciler leaves the whole state unchanged
(the peer's round is simply aborted). -/
theorem quarantine_only_from_checker (env : Env) (ip ip' x : String)
    (st : NodeState) (peers : List String)
    (hconn : env.listResp ip = .connErr)
    (hx : x ∈ (checkAllNodesInSync peers env st).2.ignoredNodes) :
    syncWithPeer env ip st = st ∧
      (syncWithPeer env ip' st).ignoredNodes = st.ignoredNodes ∧
      (x ∈ st.ignoredNodes ∨ (x ∈ peers ∧ env.listResp x = .connErr)) := by
  refine ⟨?_, (syncWithPeer_ignored_completed env ip' st).1, ?_⟩
  · unfold syncWithPeer
    rw [hconn]
  · have hx' : x ∈ (peers.foldl (checkStep env st.fileList)
        (0, st.ignoredNodes)).2 := hx
    rw [mem_foldl_checkStep_snd] at hx'
    tauto

/-- C5 counterexample: the spec's timeout claim — listing uses a short
timeout, fetching a longer one, and the convergence check the *same*
short timeout as the Reconciler's listing — fails on the code: the
Reconciler's listing client uses 30 s while the convergence check's
client uses 5 s. -/
theorem timeout_claim_false :
    ¬ (syncClientTimeout < downloadClientTimeout ∧
        checkClientTimeout = syncClientTimeout) := by
  decide

/-- C5 (amended): both inventory-listing timeouts (5 s for the check,
30 s for the Reconciler) are shorter than the 60 s file-fetch timeout,
and the convergence check's timeout is strictly shorter than — not equal
to — the Reconciler's listing timeout. -/
theorem timeout_policy :
    checkClientTimeout < syncClientTimeout ∧
      syncClientTimeout < downloadClientTimeout ∧
      checkClientTimeout < downloadClientTimeout := by
  decide

/-- C10: A `/sync` request whose `file` query parameter is missing or
empty (`Query().Get` yields `""` in both cases) is answered with HTTP
status 400, spawns no background fetch, and leaves the state — in
particular LocalInventory — unchanged. -/
theorem handleSyncRequest_missing_param (st : NodeState) (fetchOk : Bool) :
    handleSyncRequest "" fetchOk st = (400, false, st) := rfl

/-- One operation keeps the quarantine set monotone and bounded by the
configured peers. -/
theorem applyOp_ignored (peers : List String) (st : NodeState) (op : Op) :
    st.ignoredNodes ⊆ (applyOp peers st op).ignoredNodes ∧
      (applyOp peers st op).ignoredNodes ⊆ st.ignoredNodes ∪ peers.toFinset := by
  cases op with
  | reconcile ip env =>
      simp only [applyOp, (syncWithPeer_ignored_completed env ip st).1]
      exact ⟨Finset.Subset.refl _, Finset.subset_union_left⟩
  | check env =>
      constructor
      · intro x hx
        show x ∈ (peers.foldl (checkStep env st.fileList)
          (0, st.ignoredNodes)).2
        rw [mem_foldl_checkStep_snd]
        exact Or.inl hx
      · intro x hx
        have hx' : x ∈ (peers.foldl (checkStep env st.fileList)
            (0, st.ignoredNodes)).2 := hx
        rw [mem_foldl_checkStep_snd] at hx'
        rcases hx' with h | h
        · exact Finset.mem_union_left _ h
        · exact Finset.mem_union_right _ (List.mem_toFinset.mpr h.1)
  | syncReq file ok =>
      simp only [applyOp, (handleSyncRequest_ignored_completed file ok st).1]
      exact ⟨Finset.Subset.refl _, Finset.subset_union_left⟩

/-- A run of operations keeps the quarantine set monotone and bounded. -/
theorem run_ignored (peers : List String) (ops : List Op) :
    ∀ st : NodeState,
      st.ignoredNodes ⊆ (run peers st ops).ignoredNodes ∧
        (run peers st ops).ignoredNodes ⊆ st.ignoredNodes ∪ peers.toFinset := by
  induction ops with
  | nil => intro st; exact ⟨Finset.Subset.refl _, Finset.subset_union_left⟩
  | cons op ops ih =>
      intro st
      have h1 := applyOp_ignored peers st op
      have h2 := ih (applyOp peers st op)
      constructor
      · exact h1.1.trans h2.1
      · intro x hx
        rcases Finset.mem_union.mp (h2.2 hx) with h | h
        · exact h1.2 h
        · exact Finset.mem_union_right _ h

/-- C6: once a peer is in the quarantine set it stays there across every
sequence of operations, and when the quarantine set starts inside the
configured peer list it remains a subset of the configured peer list. -/
theorem quarantine_permanent_subset (peers : List String) (st : NodeState)
    (ops : List Op) (x : String)
    (hx : x ∈ st.ignoredNodes) (hsub : st.ignoredNodes ⊆ peers.toFinset) :
    x ∈ (run peers st ops).ignoredNodes ∧
      (run peers st ops).ignoredNodes ⊆ peers.toFinset := by
  have h := run_ignored peers ops st
  exact ⟨h.1 hx,
    h.2.trans (Finset.union_subset hsub (Finset.Subset.refl _))⟩

/-- A run of operations never changes `syncCompleted`. -/
theorem run_syncCompleted (peers : List String) (ops : List Op) :
    ∀ st : NodeState, (run peers st ops).syncCompleted = st.syncCompleted := by
  induction ops with
  | nil => intro st; rfl
  | cons op ops ih =>
      intro st
      show (run peers (applyOp peers st op) ops).syncCompleted = _
      rw [ih (applyOp peers st op)]
      cases op with
      | reconcile ip env => exact (syncWithPeer_ignored_completed env ip st).2
      | check env =>
          exact (checkAllNodesInSync_fileList_completed peers env st).2
      | syncReq f ok => exact (handleSyncRequest_ignored_completed f ok st).2

/-- Function `reconcileAll` never changes `syncCompleted`. -/
theorem reconcileAll_syncCompleted (env : Env) (peers : List String) :
    ∀ st : NodeState,
      (reconcileAll peers env st).syncCompleted = st.syncCompleted := by
  induction peers with
  | nil => intro st; rfl
  | cons ip tl ih =>
      intro st
      show (reconcileAll tl env (syncWithPeer env ip st)).syncCompleted = _
      rw [ih (syncWithPeer env ip st)]
      exact (syncWithPeer_ignored_completed env ip st).2

/-- The bounded retry loop never changes `syncCompleted`. -/
theorem runLoop_syncCompleted (peers : List String) (envs : Nat → Env) :
    ∀ (fuel att : Nat) (st : NodeState),
      (runLoop peers envs fuel att st).1.syncCompleted = st.syncCompleted := by
  intro fuel
  induction fuel with
  | zero => intro att st; rfl
  | succ fuel ih =>
      intro att st
      have hd : (doRound peers (envs att) st).2.syncCompleted =
          st.syncCompleted := by
        unfold doRound
        rw [(checkAllNodesInSync_fileList_completed peers (envs att)
          (reconcileAll peers (envs att) st)).2]
        exact reconcileAll_syncCompleted (envs att) peers st
      simp only [runLoop]
      by_cases h : (doRound peers (envs att) st).1 = true
      · simp only [if_pos h]
        exact hd
      · simp only [if_neg h]
        rw [ih (att + 1) (doRound peers (envs att) st).2]
        exact hd

/-- C8: the round-loop logic never sets the sync-completed flag: after
the whole bounded retry loop and after any sequence of operations the
flag is still false, so `/check` answers `PENDING` in every reachable
state. -/
theorem check_endpoint_always_pending (peers : List String)
    (envs : Nat → Env) (files : Finset String) (ops : List Op) :
    (run peers (initState files) ops).syncCompleted = false ∧
      handleCheckSync (run peers (initState files) ops) = "PENDING" ∧
      (mainRun peers envs (initState files)).1.syncCompleted = false ∧
      handleCheckSync (mainRun peers envs (initState files)).1 = "PENDING" := by
  have h1 : (run peers (initState files) ops).syncCompleted = false := by
    rw [run_syncCompleted]; rfl
  have h2 : (mainRun peers envs (initState files)).1.syncCompleted = false := by
    unfold mainRun
    split
    · rfl
    · rw [runLoop_syncCompleted]; rfl
  exact ⟨h1, by simp [handleCheckSync, h1], h2, by simp [handleCheckSync, h2]⟩

/-- Environment in which every list-files call fails with a timeout or
connection error and every download fails. -/
def allConnErrEnv : Env := ⟨fun _ => .connErr, fun _ _ => false⟩

/-- Environment in which every list-files body read fails and every
download fails. -/
def allReadErrEnv : Env := ⟨fun _ => .readErr, fun _ _ => false⟩

/-- Environment in which every peer reports exactly the file list
`["a"]`. -/
def okEnv : Env := ⟨fun _ => .ok ["a"], fun _ _ => false⟩

/-- C7 counterexample: with the duplicated configured peer list
`["a", "a"]` and quarantine set `{"a"}`, every configured peer is in the
quarantine set, yet the checker computes `0 + 1 >= 2` and returns
false. -/
theorem all_quarantined_check_false :
    (∀ ip ∈ ["a", "a"], ip ∈ ({"a"} : Finset String)) ∧
      (checkAllNodesInSync ["a", "a"] allConnErrEnv
        ⟨∅, {"a"}, false⟩).1 = false := by
  constructor
  · decide
  · decide

/-- C7 (amended): provided the configured peer list contains no duplicate
addresses, if every configured peer is in the quarantine set when a
convergence check runs, the Convergence Checker returns true, for every
content of LocalInventory. -/
theorem check_true_when_all_quarantined (peers : List String) (env : Env)
    (st : NodeState) (hnd : peers.Nodup)
    (hall : ∀ ip ∈ peers, ip ∈ st.ignoredNodes) :
    (checkAllNodesInSync peers env st).1 = true := by
  unfold checkAllNodesInSync
  simp only [decide_eq_true_iff]
  have hsub : peers.toFinset ⊆
      (peers.foldl (checkStep env st.fileList) (0, st.ignoredNodes)).2 := by
    intro x hx
    rw [List.mem_toFinset] at hx
    rw [mem_foldl_checkStep_snd]
    exact Or.inl (hall x hx)
  have hcard : peers.length ≤
      (peers.foldl (checkStep env st.fileList) (0, st.ignoredNodes)).2.card :=
    calc peers.length = peers.toFinset.card :=
          (List.toFinset_card_of_nodup hnd).symm
      _ ≤ _ := Finset.card_le_card hsub
  omega

/-- Witness for C7's amended theorem at peers `["a"]`, all quarantined. -/
theorem check_true_when_all_quarantined_witness :
    (checkAllNodesInSync ["a"] allConnErrEnv ⟨∅, {"a"}, false⟩).1 = true :=
  check_true_when_all_quarantined ["a"] allConnErrEnv ⟨∅, {"a"}, false⟩
    (by decide) (by decide)

/-- The retry loop started at round `att` with `fuel` rounds of budget
runs at most `att + fuel` rounds, and exactly `att + fuel` when it never
converges. -/
theorem runLoop_attempts (peers : List String) (envs : Nat → Env) (fuel : Nat) :
    ∀ (att : Nat) (st : NodeState),
      (runLoop peers envs fuel att st).2.1 ≤ att + fuel ∧
        ((runLoop peers envs fuel att st).2.2 = false →
          (runLoop peers envs fuel att st).2.1 = att + fuel) := by
  induction fuel with
  | zero => intro att st; simp [runLoop]
  | succ fuel ih =>
      intro att st
      simp only [runLoop]
      by_cases h : (doRound peers (envs att) st).1 = true
      · simp only [if_pos h]
        constructor
        · omega
        · intro hb; cases hb
      · simp only [if_neg h]
        have := ih (att + 1) (doRound peers (envs att) st).2
        constructor
        · have h1 := this.1; omega
        · intro hb
          have h2 := this.2 hb
          omega

/-- C9: with a non-empty configured peer list, `main`'s loop enters the
reconcile-and-check round at most `maxAttempts` times, and when no
round's convergence check returns true it terminates after exactly
`maxAttempts` rounds. -/
theorem mainRun_attempts_bounded (peers : List String) (envs : Nat → Env)
    (st : NodeState) (hne : peers ≠ []) :
    (mainRun peers envs st).2.1 ≤ maxAttempts ∧
      ((mainRun peers envs st).2.2 = false →
        (mainRun peers envs st).2.1 = maxAttempts) := by
  unfold mainRun
  rw [if_neg (by simpa using hne)]
  simpa using runLoop_attempts peers envs maxAttempts 0 st

/-- Witness for C9 at one peer whose list-files body read always fails:
no round converges and the loop runs all five rounds. -/
theorem mainRun_attempts_bounded_witness :
    (mainRun ["a"] (fun _ => allReadErrEnv) (initState ∅)).2.1 ≤ maxAttempts ∧
      ((mainRun ["a"] (fun _ => allReadErrEnv) (initState ∅)).2.2 = false →
        (mainRun ["a"] (fun _ => allReadErrEnv) (initState ∅)).2.1 =
          maxAttempts) :=
  mainRun_attempts_bounded ["a"] (fun _ => allReadErrEnv) (initState ∅)
    (by decide)

/-- Witness for C2 at a concrete matching peer response. -/
theorem checkStep_counts_iff_witness :
    (checkStep okEnv {"a"} (0, ∅) "b").1 = 0 + 1 ↔
      (["a"] : List String).toFinset.card = ({"a"} : Finset String).card ∧
        ∀ f ∈ ({"a"} : Finset String), f ∈ (["a"] : List String) :=
  checkStep_counts_iff okEnv {"a"} 0 ∅ "b" ["a"] (by decide) rfl

/-- Witness for C4 at one connection-failing peer. -/
theorem quarantine_only_from_checker_witness :
    syncWithPeer allConnErrEnv "a" (initState ∅) = initState ∅ ∧
      (syncWithPeer allConnErrEnv "a" (initState ∅)).ignoredNodes =
        (initState ∅).ignoredNodes ∧
      ("a" ∈ (initState ∅).ignoredNodes ∨
        ("a" ∈ ["a"] ∧ allConnErrEnv.listResp "a" = .connErr)) :=
  quarantine_only_from_checker allConnErrEnv "a" "a" "a" (initState ∅) ["a"]
    rfl (by decide)

/-- Witness for C6 at one quarantined peer and one check operation. -/
theorem quarantine_permanent_subset_witness :
    "a" ∈ (run ["a"] ⟨∅, {"a"}, false⟩ [.check allConnErrEnv]).ignoredNodes ∧
      (run ["a"] ⟨∅, {"a"}, false⟩
        [.check allConnErrEnv]).ignoredNodes ⊆ (["a"] : List String).toFinset :=
  quarantine_permanent_subset ["a"] ⟨∅, {"a"}, false⟩ [.check allConnErrEnv]
    "a" (by decide) (by decide)

end GoSync
